import Mathlib

/-!
# Verification of the document-generation task engine

Shallow embedding of the core of the `inz-backend` repository:

* `GoogleDocsService` (src/google-docs/google-docs.service.ts): the document
  provider client — `isRetryableDriveError`, `withRetry`, `copyTemplateDoc`,
  `replacePlaceholders`, `exportPdf`, `uploadPdfToDrive`, `deleteFile`.
* `DocumentsService` (src/documents/documents.service.ts): the task pipeline —
  `getMappingsForTemplate`, `buildReplacementsForParticipant`,
  `generateFileNameForTask`, `processSingleTask` (per-participant loop and its
  store writes), `createDocumentTask` (row creation), and the claim phase of
  `processDocumentTasks`.

External effects are made explicit: remote provider calls become oracle
arguments, store writes become trace events, and time/delays become numbers.
JS values occurring in participant records are modelled by `PValue`
(sheet cells are strings or null; the `id` field is a number).
-/

/-- A JavaScript value as it occurs in a participant record
(`Record<string, any>` built from sheet rows: the `id` field is a number,
mapped cells are strings or `null`). -/
inductive PValue where
  | vnull
  | vstr (s : String)
  | vnum (n : Int)
  | vbool (b : Bool)
deriving DecidableEq, Repr

/-- JS truthiness of a `PValue` (`null`, `""`, `0`, `false` are falsy). -/
def PValue.truthy : PValue → Bool
  | .vnull => false
  | .vstr s => !(s = "")
  | .vnum n => !(n = 0)
  | .vbool b => b

/-- A participant record: a JS object, i.e. an ordered association list of
fields (`Object.entries` order).  Keys are unique in a JS object; theorems
that need this carry a `Nodup` hypothesis. -/
abbrev Participant := List (String × PValue)

/-- Property access `participant[key]`: `none` models `undefined`. -/
def plookup (p : Participant) (k : String) : Option PValue :=
  (p.find? (fun e => e.1 = k)).map (fun e => e.2)

/-- `value === null || value === undefined ? '' : String(value)` applied to a
property access (`none` = `undefined`). -/
def stringifyOpt : Option PValue → String
  | none => ""
  | some .vnull => ""
  | some (.vstr s) => s
  | some (.vnum n) => toString n
  | some (.vbool b) => if b then "true" else "false"

/-- JS `a || b` where `a` is a property access and `b` a fallback value. -/
def jsOrPV (a : Option PValue) (b : PValue) : PValue :=
  match a with
  | some v => if v.truthy then v else b
  | none => b

/-- JS `a || b` on strings (`""` is falsy). -/
def jsOrStr (a b : String) : String := if a = "" then b else a

/-- JS object assignment `obj[k] = v` on an ordered association list:
an existing key is overwritten in place, a new key is appended.  This is also
the `Map.set` semantics used to deduplicate scheduler candidates. -/
def jsAssign {β : Type} (obj : List (String × β)) (k : String) (v : β) :
    List (String × β) :=
  if obj.any (fun e => e.1 = k) then
    obj.map (fun e => if e.1 = k then (k, v) else e)
  else
    obj ++ [(k, v)]

/-- The pattern occurs as a contiguous run of the character list. -/
def charsContains (pat : List Char) : List Char → Bool
  | [] => pat.isEmpty
  | c :: cs => pat.isPrefixOf (c :: cs) || charsContains pat cs

/-- `s.includes(pat)`: the pattern occurs as a contiguous substring. -/
def strIncludes (s pat : String) : Bool := charsContains pat.data s.data

/-- `s.replace(/[^a-zA-Z0-9]/g, '_')`: every character outside `[a-zA-Z0-9]`
becomes an underscore (stated on the character list of the string). -/
def sanitizeName (s : String) : String :=
  String.mk (s.data.map (fun c => if c.isAlphanum then c else '_'))

section DocumentProviderClient

/-!
## Document provider client (`google-docs.service.ts`)

A raised provider error, with the fields inspected by
`isRetryableDriveError` and the `catch` blocks.  Absent properties are
`none` (= `undefined`).
-/

structure DriveError where
  code : Option Int := none
  responseStatus : Option Int := none
  responseStatusCode : Option Int := none
  status : Option Int := none
  /-- `error?.response?.data?.error?.errors?.[0]?.reason` -/
  responseReason : Option String := none
  /-- `error?.errors?.[0]?.reason` -/
  errorsReason : Option String := none
  message : String := ""
deriving DecidableEq, Repr

/-- `error?.code ?? error?.response?.status ?? error?.response?.statusCode ??
error?.status` (`??` skips only null/undefined). -/
def DriveError.statusOf (e : DriveError) : Option Int :=
  e.code <|> e.responseStatus <|> e.responseStatusCode <|> e.status

/-- `error?.response?.data?.error?.errors?.[0]?.reason ||
error?.errors?.[0]?.reason` (a falsy, i.e. empty, first reason falls through). -/
def DriveError.reasonOf (e : DriveError) : Option String :=
  match e.responseReason with
  | some r => if r = "" then e.errorsReason else some r
  | none => e.errorsReason

/-- `isRetryableDriveError` (google-docs.service.ts:112-142): status in
`[429, 500, 502, 503, 504]`, or a Google rate-limit/backend reason. -/
def isRetryableDriveError (e : DriveError) : Bool :=
  (match e.statusOf with
   | some s => s = 429 || s = 500 || s = 502 || s = 503 || s = 504
   | none => false) ||
  (match e.reasonOf with
   | some r =>
       r = "rateLimitExceeded" || r = "userRateLimitExceeded" ||
       r = "dailyLimitExceeded" || r = "backendError"
   | none => false)

/-- Result of running `withRetry` against an oracle: the outcome, the number
of invocations of the wrapped operation, and the sleep durations (ms) between
consecutive attempts. -/
structure RetryResult (α : Type) where
  result : Except DriveError α
  invocations : Nat
  delays : List Nat
deriving Repr

deriving instance DecidableEq for Except

instance {α : Type} [DecidableEq α] : DecidableEq (RetryResult α) :=
  fun a b =>
    decidable_of_iff
      (a.result = b.result ∧ a.invocations = b.invocations ∧ a.delays = b.delays)
      (by cases a; cases b; simp)

/-- Loop body of `withRetry` (google-docs.service.ts:152-177).  `fn n` is the
outcome of the `n`-th invocation (0-indexed, so the 1-indexed `attempt` of the
source is `attempt0 + 1`); `remaining = maxAttempts - attempt` counts the
attempts left after the current one, so `remaining = 0` is the source's
`attempt === maxAttempts`.  The delay after failed attempt `attempt0 + 1` is
`Math.round(baseDelayMs * 2 ** attempt0)`, exact on naturals. -/
def withRetryGo {α : Type} (fn : Nat → Except DriveError α) (baseDelayMs : Nat) :
    Nat → Nat → RetryResult α
  | attempt0, remaining =>
    match fn attempt0 with
    | .ok v => ⟨.ok v, 1, []⟩
    | .error e =>
      if isRetryableDriveError e = false then ⟨.error e, 1, []⟩
      else
        match remaining with
        | 0 => ⟨.error e, 1, []⟩
        | r + 1 =>
          let rest := withRetryGo fn baseDelayMs (attempt0 + 1) r
          ⟨rest.result, rest.invocations + 1, baseDelayMs * 2 ^ attempt0 :: rest.delays⟩

/-- `withRetry` (google-docs.service.ts:144-180): up to `maxAttempts`
invocations, retrying only retryable errors with exponential backoff, and
rethrowing the original error otherwise.  (The source is only invoked with
`maxAttempts ≥ 1`.) -/
def withRetry {α : Type} (fn : Nat → Except DriveError α)
    (maxAttempts : Nat := 6) (baseDelayMs : Nat := 500) : RetryResult α :=
  withRetryGo fn baseDelayMs 0 (maxAttempts - 1)

/-- Errors thrown by the service methods: the `ensureInitialized` failure
versus an `InternalServerErrorException` raised from a `catch` block. -/
inductive SvcError where
  | notConfigured (msg : String)
  | internal (msg : String)
deriving DecidableEq, Repr

/-- The message rewriting done by `copyTemplateDoc`'s `catch` block
(google-docs.service.ts:237-258). -/
def copyErrorMessage (e : DriveError) : String :=
  if e.code = some 403 || strIncludes e.message "permission" then
    "Brak uprawnień do skopiowania dokumentu. Dokument musi być udostępniony (z uprawnieniami \"Edytor\") dla konta Google używanego do autoryzacji OAuth2."
  else if e.code = some 404 || strIncludes e.message "not found" then
    "Dokument szablonu nie został znaleziony."
  else
    "Nie udało się skopiować dokumentu: " ++ e.message

/-- `copyTemplateDoc` (google-docs.service.ts:202-259).  `copyCall` is the
outcome of the single `drive.files.copy` request (its payload the `id` of the
response, `none` when absent).  The second component counts remote
invocations: the call is executed exactly once — it is *not* wrapped in
`withRetry` — and any error is rethrown wrapped, without retry. -/
def copyTemplateDoc (isInitialized : Bool)
    (copyCall : Except DriveError (Option String)) :
    Except SvcError String × Nat :=
  if !isInitialized then
    (.error (.notConfigured "Google Docs API nie jest zainicjalizowane"), 0)
  else
    match copyCall with
    | .ok (some fileId) => (.ok fileId, 1)
    | .ok none =>
      -- the "missing file id" InternalServerErrorException thrown inside `try`
      -- is caught by the same `catch` and re-wrapped by its final branch
      (.error (.internal ("Nie udało się skopiować dokumentu: " ++
        "Nie udało się skopiować dokumentu - brak ID pliku w odpowiedzi")), 1)
    | .error e => (.error (.internal (copyErrorMessage e)), 1)

/-- The message rewriting done by `replacePlaceholders`'s `catch` block
(google-docs.service.ts:319-338). -/
def replaceErrorMessage (e : DriveError) : String :=
  if e.code = some 403 || strIncludes e.message "permission" then
    "Brak uprawnień do edycji dokumentu. Dokument musi być udostępniony (z uprawnieniami \"Edytor\") dla konta Google używanego do autoryzacji OAuth2."
  else if e.code = some 404 || strIncludes e.message "not found" then
    "Dokument nie został znaleziony."
  else
    "Nie udało się zamienić placeholderów: " ++ e.message

/-- `replacePlaceholders` (google-docs.service.ts:267-339).  `getCall` is the
outcome of the `documents.get` request and `batchCall` of the
`documents.batchUpdate` request; the `Nat` counts remote invocations.  Each
request is executed at most once (no `withRetry`); `batchUpdate` is skipped
when there are no replacement entries. -/
def replacePlaceholders (isInitialized : Bool)
    (getCall : Except DriveError Unit) (batchCall : Except DriveError Unit)
    (replacements : List (String × String)) :
    Except SvcError Unit × Nat :=
  if !isInitialized then
    (.error (.notConfigured "Google Docs API nie jest zainicjalizowane"), 0)
  else
    match getCall with
    | .error e => (.error (.internal (replaceErrorMessage e)), 1)
    | .ok _ =>
      if replacements.length = 0 then (.ok (), 1)
      else
        match batchCall with
        | .ok _ => (.ok (), 2)
        | .error e => (.error (.internal (replaceErrorMessage e)), 2)

/-- The message rewriting done by `exportPdf`'s `catch` block
(google-docs.service.ts:365-391). -/
def exportErrorMessage (e : DriveError) : String :=
  if e.code = some 403 || strIncludes e.message "permission" then
    "Brak uprawnień do eksportu dokumentu. Dokument musi być udostępniony (z uprawnieniami \"Wyświetlanie\" lub wyżej) dla konta Google używanego do autoryzacji OAuth2."
  else if e.code = some 404 || strIncludes e.message "not found" then
    "Dokument nie został znaleziony."
  else if strIncludes e.message "export" || strIncludes e.message "unsupported" then
    "Nie można wyeksportować tego pliku do PDF. Upewnij się, że jest to dokument Google Docs."
  else
    "Nie udało się wyeksportować dokumentu do PDF: " ++ e.message

/-- `exportPdf` (google-docs.service.ts:346-392).  `exportCall` is the single
`drive.files.export` request, its payload the exported bytes (kept opaque);
the `Nat` counts remote invocations — exactly one, no `withRetry`. -/
def exportPdf (isInitialized : Bool) (exportCall : Except DriveError String) :
    Except SvcError String × Nat :=
  if !isInitialized then
    (.error (.notConfigured "Google Docs API nie jest zainicjalizowane"), 0)
  else
    match exportCall with
    | .ok buf => (.ok buf, 1)
    | .error e => (.error (.internal (exportErrorMessage e)), 1)

/-- The message rewriting done by `uploadPdfToDrive`'s `catch` block
(google-docs.service.ts:441-459). -/
def uploadErrorMessage (e : DriveError) : String :=
  if e.code = some 403 || strIncludes e.message "permission" then
    "Brak uprawnień do wrzucenia pliku do Drive. Konto Google użyte do autoryzacji OAuth2 musi mieć uprawnienia do zapisu w folderze."
  else if e.code = some 404 || strIncludes e.message "not found" then
    "Folder nie został znaleziony w Drive."
  else
    "Nie udało się wrzucić PDF do Drive: " ++ e.message

/-- `uploadPdfToDrive` (google-docs.service.ts:401-460).  `createCall` is the
single `drive.files.create` request (payload: the `id` of the created file);
the `Nat` counts remote invocations — exactly one, no `withRetry`. -/
def uploadPdfToDrive (isInitialized : Bool)
    (createCall : Except DriveError (Option String)) :
    Except SvcError String × Nat :=
  if !isInitialized then
    (.error (.notConfigured "Google Docs API nie jest zainicjalizowane"), 0)
  else
    match createCall with
    | .ok (some fileId) => (.ok fileId, 1)
    | .ok none =>
      (.error (.internal ("Nie udało się wrzucić PDF do Drive: " ++
        "Nie udało się wrzucić PDF do Drive - brak ID pliku w odpowiedzi")), 1)
    | .error e => (.error (.internal (uploadErrorMessage e)), 1)

/-- `deleteFile` (google-docs.service.ts:713-739).  `deleteCall n` is the
outcome of the `n`-th `drive.files.delete` invocation.  The call *is* wrapped
in `withRetry` with `maxAttempts = 4`, `baseDelayMs = 500`; after the wrapper,
every error is caught and only logged, so the method never raises once the
client is initialized.  The `Nat` counts remote invocations. -/
def deleteFile (isInitialized : Bool)
    (deleteCall : Nat → Except DriveError Unit) :
    Except SvcError Unit × Nat :=
  if !isInitialized then
    (.error (.notConfigured "Google Docs API nie jest zainicjalizowane"), 0)
  else
    let r := withRetry deleteCall 4 500
    (.ok (), r.invocations)

end DocumentProviderClient

section DocumentsService

/-!
## Documents service (`documents.service.ts`)
-/

/-- A template placeholder mapping row, as returned by
`getMappingsForTemplate` (columns `placeholder`, `participant_key`). -/
structure Mapping where
  placeholder : String
  participantKey : String
deriving DecidableEq, Repr

/-- `getMappingsForTemplate` (documents.service.ts:259-286), as a function of
the store query outcome: a query error is logged and collapsed to `null`,
exactly like an empty mapping list. -/
def getMappingsForTemplate (queryResult : Except String (List Mapping)) :
    Option (List Mapping) :=
  match queryResult with
  | .error _ => none
  | .ok data => if data.length = 0 then none else some data

/-- `buildReplacementsForParticipant` (documents.service.ts:1090-1115): with
mappings, `replacements[placeholder] = value === null || undefined ? '' :
String(participant[participantKey])`; without (null or empty) mappings, every
participant field keyed by its own name, same null handling.  The JS object is
built by successive assignments (`jsAssign`). -/
def buildReplacementsForParticipant (participant : Participant)
    (mappings : Option (List Mapping)) : List (String × String) :=
  match mappings with
  | some ms =>
    if 0 < ms.length then
      ms.foldl (fun acc m =>
        jsAssign acc m.placeholder (stringifyOpt (plookup participant m.participantKey))) []
    else
      participant.foldl (fun acc e => jsAssign acc e.1 (stringifyOpt (some e.2))) []
  | none =>
    participant.foldl (fun acc e => jsAssign acc e.1 (stringifyOpt (some e.2))) []

/-- `participant.first_name || participant.firstName || ''`
(documents.service.ts:1126-1127). -/
def taskFirstName (p : Participant) : PValue :=
  jsOrPV (plookup p "first_name") (jsOrPV (plookup p "firstName") (.vstr ""))

/-- `participant.last_name || participant.lastName || ''`
(documents.service.ts:1128). -/
def taskLastName (p : Participant) : PValue :=
  jsOrPV (plookup p "last_name") (jsOrPV (plookup p "lastName") (.vstr ""))

/-- `generateFileNameForTask` (documents.service.ts:1121-1141).  With both
names truthy: `"<safeTemplateName> - <safeLastName> <safeFirstName>.pdf"`
(the participant id does not occur); otherwise the fallback
`"<safeTemplateName> - participant-<id>.pdf"`.  `none` models the TypeError a
truthy non-string name value would raise from `.replace` (unreachable for
sheet-resolved participants, whose cells are strings). -/
def generateFileNameForTask (participant : Participant) (participantId : Int)
    (templateName : String) : Option String :=
  let firstName := taskFirstName participant
  let lastName := taskLastName participant
  if firstName.truthy && lastName.truthy then
    match firstName, lastName with
    | .vstr f, .vstr l =>
      some (sanitizeName templateName ++ " - " ++ sanitizeName l ++ " " ++
        sanitizeName f ++ ".pdf")
    | _, _ => none
  else
    some (sanitizeName templateName ++ " - participant-" ++
      toString participantId ++ ".pdf")

/-- One `output_files` entry (documents.service.ts:905-911): `docFileId` is
optional, `pdfFileId = ""` signals failure, `error` is set on failure. -/
structure OutputFile where
  participantId : Int
  docFileId : Option String := none
  pdfFileId : String
  name : String
  error : Option String := none
deriving DecidableEq, Repr

/-- Task status column (`pending | processing | done | failed`). -/
inductive TaskStatus where
  | pending
  | processing
  | done
  | failed
deriving DecidableEq, Repr

/-- A `document_generation_tasks` row (unnamed migration: all of
`output_files`, `error`, `locked_at`, `locked_by` default to NULL). -/
structure TaskRow where
  status : TaskStatus
  progress_total : Nat
  progress_done : Nat
  output_files : Option (List OutputFile)
  error : Option String
  locked_at : Option Int
  locked_by : Option String
deriving DecidableEq, Repr

/-- The row inserted by `createDocumentTask` (documents.service.ts:512-525):
`status: 'pending'`, `progress_total` = number of participant ids,
`progress_done: 0`; `output_files`, `error`, `locked_at`, `locked_by` are not
supplied and take their NULL column defaults. -/
def createTaskRow (total : Nat) : TaskRow :=
  { status := .pending
    progress_total := total
    progress_done := 0
    output_files := none
    error := none
    locked_at := none
    locked_by := none }

/-- The updates this core applies to a task row:

* `claimWrite` — the scheduler's claim (documents.service.ts:750-757):
  `status: 'processing', locked_at: now, locked_by: <worker>`;
* `progressWrite` — the in-loop persist (documents.service.ts:1029-1035 and
  1051-1057): `progress_done`, `output_files` only;
* `templateFailWrite` — template lookup failed (documents.service.ts:858-866);
* `participantsFailWrite` — participant fetch failed
  (documents.service.ts:892-900);
* `finalWrite` — the terminal update (documents.service.ts:1062-1077):
  status `failed` iff some participant errored, locks cleared, error message
  only when failed. -/
inductive CoreWrite where
  | claimWrite (now : Int) (owner : String)
  | progressWrite (pd : Nat) (files : List OutputFile)
  | templateFailWrite (msg : String)
  | participantsFailWrite (msg : String)
  | finalWrite (hasErrors : Bool) (pd : Nat) (files : List OutputFile)
deriving DecidableEq, Repr

/-- Apply a `CoreWrite` to a row: only the named columns change. -/
def applyWrite (r : TaskRow) : CoreWrite → TaskRow
  | .claimWrite now owner =>
    { r with status := .processing, locked_at := some now, locked_by := some owner }
  | .progressWrite pd files =>
    { r with progress_done := pd, output_files := some files }
  | .templateFailWrite msg =>
    { r with status := .failed, error := some msg, locked_at := none, locked_by := none }
  | .participantsFailWrite msg =>
    { r with status := .failed, error := some msg, locked_at := none, locked_by := none }
  | .finalWrite hasErrors pd files =>
    { r with
      status := if hasErrors then .failed else .done
      progress_done := pd
      output_files := some files
      error := if hasErrors then
          some "Wystąpiły błędy podczas przetwarzania niektórych uczestników"
        else none
      locked_at := none
      locked_by := none }

/-- The task-row columns fetched by `processSingleTask`
(documents.service.ts:827-833).  The select list is `id, project_id,
template_id, participant_ids, output_drive_folder_id, progress_total,
output_files, requested_by` — note that `progress_done` is **not** selected. -/
structure FetchedTask where
  participant_ids : List Int
  output_files : Option (List OutputFile)
  progress_total : Nat
deriving DecidableEq, Repr

/-- Outcome of the per-participant provider pipeline (copy → substitute →
export → upload), resolved externally:
`ok` with the intermediate and final ids, a failure before the copy produced
an id (`docFileId` stays undefined), or a failure after it. -/
inductive ProviderOutcome where
  | ok (docFileId pdfFileId : String)
  | failEarly (msg : String)
  | failLate (docFileId : String) (msg : String)
deriving DecidableEq, Repr

/-- Observable events of one `processSingleTask` run: the provider pipeline
being driven for a found participant (with the replacements and file name it
was given), and the store writes. -/
inductive TraceEv where
  | generate (participantId : Int) (replacements : List (String × String))
      (fileName : String)
  | store (w : CoreWrite)
deriving DecidableEq, Repr

/-- Accumulated loop state of `processSingleTask`
(documents.service.ts:904-915): `outputFiles`, `progressDone`, `hasErrors`. -/
structure LoopState where
  outputFiles : List OutputFile
  progressDone : Nat
  hasErrors : Bool
deriving DecidableEq, Repr

/-- One iteration of the participant loop (documents.service.ts:918-1059):

* participant missing from the sheet data → push an error entry, set
  `hasErrors`, advance progress and `continue` — **without** the in-loop
  store write;
* found, but the file-name generation raises (truthy non-string name) → the
  outer `catch`: error entry, progress advanced, in-loop write performed;
* found → drive the provider (one `generate` event), push a success or error
  entry accordingly, advance progress, and perform the in-loop write. -/
def processParticipant (participantsData : List Participant)
    (mappings : Option (List Mapping)) (templateName : String)
    (provider : Int → ProviderOutcome) (st : LoopState) (participantId : Int) :
    LoopState × List TraceEv :=
  match participantsData.find? (fun p => plookup p "id" = some (.vnum participantId)) with
  | none =>
    ({ outputFiles := st.outputFiles ++
        [{ participantId := participantId
           pdfFileId := ""
           name := "participant-" ++ toString participantId ++ ".pdf"
           error := some ("Uczestnik o ID " ++ toString participantId ++
             " nie został znaleziony w arkuszu") }]
       progressDone := st.progressDone + 1
       hasErrors := true }, [])
  | some participant =>
    let replacements := buildReplacementsForParticipant participant mappings
    match generateFileNameForTask participant participantId templateName with
    | none =>
      let st' : LoopState :=
        { outputFiles := st.outputFiles ++
            [{ participantId := participantId
               pdfFileId := ""
               name := "participant-" ++ toString participantId ++ ".pdf"
               error := some "TypeError" }]
          progressDone := st.progressDone + 1
          hasErrors := true }
      (st', [.store (.progressWrite st'.progressDone st'.outputFiles)])
    | some fileName =>
      let entry : OutputFile :=
        match provider participantId with
        | .ok doc pdf =>
          { participantId := participantId, docFileId := some doc
            pdfFileId := pdf, name := fileName }
        | .failEarly msg =>
          { participantId := participantId, pdfFileId := "", name := fileName
            error := some (jsOrStr msg "Nieznany błąd podczas generowania PDF") }
        | .failLate doc msg =>
          { participantId := participantId, docFileId := some doc
            pdfFileId := "", name := fileName
            error := some (jsOrStr msg "Nieznany błąd podczas generowania PDF") }
      let errored : Bool :=
        match provider participantId with
        | .ok _ _ => false
        | _ => true
      let st' : LoopState :=
        { outputFiles := st.outputFiles ++ [entry]
          progressDone := st.progressDone + 1
          hasErrors := st.hasErrors || errored }
      (st', [.generate participantId replacements fileName,
             .store (.progressWrite st'.progressDone st'.outputFiles)])

/-- The participant loop: fold `processParticipant` over the task's
participant ids, in their stored order, concatenating the event traces. -/
def runParticipants (participantsData : List Participant)
    (mappings : Option (List Mapping)) (templateName : String)
    (provider : Int → ProviderOutcome) :
    List Int → LoopState → LoopState × List TraceEv
  | [], st => (st, [])
  | pid :: rest, st =>
    let step := processParticipant participantsData mappings templateName provider st pid
    let restRun := runParticipants participantsData mappings templateName provider rest step.1
    (restRun.1, step.2 ++ restRun.2)

/-- `processSingleTask` (documents.service.ts:822-1082) after its fetches
succeeded: `participantsData` and `templateName` are the fetched template and
participant data, `mappingsQuery` the outcome of the mappings store query.
The loop starts from `task.output_files || []` but from `progressDone = 0`,
because `progress_done` is **not** in the fetch's select list, so
`task.progress_done || 0` reads `undefined`.  After the loop the terminal
write sets `failed` iff `hasErrors`, clears the lock and sets the overall
error message only when failed (`finalWrite`). -/
def processSingleTask (task : FetchedTask) (participantsData : List Participant)
    (mappingsQuery : Except String (List Mapping)) (templateName : String)
    (provider : Int → ProviderOutcome) : LoopState × List TraceEv :=
  let mappings := getMappingsForTemplate mappingsQuery
  let outputFiles := task.output_files.getD []
  let progressDone : Nat := 0
  let run := runParticipants participantsData mappings templateName provider
    task.participant_ids
    { outputFiles := outputFiles, progressDone := progressDone, hasErrors := false }
  (run.1, run.2 ++ [.store (.finalWrite run.1.hasErrors run.1.progressDone run.1.outputFiles)])

end DocumentsService

section TaskClaimScheduler

/-!
## Task claim scheduler (`processDocumentTasks`, documents.service.ts:657-815)

The claim phase: candidates scanned earlier (`pending`, or `processing` with
`locked_at` below the stale threshold), then for each candidate — up to the
batch size — an atomic conditional update.  The store passed to the loop may
differ from the one the candidates were scanned from (overlapping
invocations); the conditional update re-checks the row.
-/

/-- A candidate row as fetched by the scan queries
(`id, status, locked_at, created_at`). -/
structure CandidateTask where
  id : String
  status : TaskStatus
  locked_at : Option Int
  created_at : Int
deriving DecidableEq, Repr

/-- The task store visible to the scheduler: rows keyed by id. -/
abbrev Store := List (String × TaskRow)

/-- Row lookup by id. -/
def storeFind (s : Store) (id : String) : Option TaskRow :=
  (s.find? (fun e => e.1 = id)).map (fun e => e.2)

/-- Update the row with the given id (all others unchanged). -/
def storeUpdate (s : Store) (id : String) (f : TaskRow → TaskRow) : Store :=
  s.map (fun e => if e.1 = id then (e.1, f e.2) else e)

/-- The WHERE clause of the conditional claim update
(documents.service.ts:759-767): for a pending candidate,
`status = 'pending'`; for a stale candidate, `status = 'processing' AND
locked_at < threshold` (SQL `<` is false on NULL). -/
def claimCond (isPending : Bool) (threshold : Int) (r : TaskRow) : Bool :=
  if isPending then r.status = .pending
  else
    r.status = .processing &&
      (match r.locked_at with
       | some t => decide (t < threshold)
       | none => false)

/-- The conditional update `UPDATE ... SET status='processing', locked_at=now,
locked_by=owner WHERE id = id AND <cond>`: returns the new store and whether a
row was affected. -/
def tryClaim (store : Store) (id : String) (cond : TaskRow → Bool)
    (now : Int) (owner : String) : Store × Bool :=
  match storeFind store id with
  | some r =>
    if cond r then
      (storeUpdate store id (fun row => applyWrite row (.claimWrite now owner)), true)
    else (store, false)
  | none => (store, false)

/-- The snapshot-level eligibility test of the loop
(documents.service.ts:739-746): `isPending || isStale`, i.e. the negation of
the `!isPending && !isStale` guard that `continue`s. -/
def candidateEligibleSnapshot (threshold : Int) (c : CandidateTask) : Bool :=
  (c.status = .pending) ||
    (c.status = .processing &&
      (match c.locked_at with
       | some t => decide (t < threshold)
       | none => false))

/-- The row states a claim may legitimately take over: still pending, or
still processing with a lock older than the threshold. -/
def eligibleRow (threshold : Int) (r : TaskRow) : Prop :=
  r.status = .pending ∨
    (r.status = .processing ∧ ∃ t, r.locked_at = some t ∧ t < threshold)

/-- The claim loop (documents.service.ts:732-785): stop at the batch size;
`continue` past candidates whose scanned snapshot is no longer eligible; run
the conditional update for the rest (with the pending- or stale-shaped WHERE
clause according to the snapshot); count an id as claimed only when the
update affected a row; an unaffected update is logged and skipped — the loop
itself never fails. -/
def claimLoop (batchSize : Nat) (threshold now : Int) (owner : String) :
    List CandidateTask → Store → List String → List String × Store
  | [], store, claimed => (claimed, store)
  | c :: rest, store, claimed =>
    if batchSize ≤ claimed.length then (claimed, store)
    else if candidateEligibleSnapshot threshold c then
      match tryClaim store c.id (claimCond (c.status = .pending) threshold) now owner with
      | (store2, true) => claimLoop batchSize threshold now owner rest store2 (claimed ++ [c.id])
      | (store2, false) => claimLoop batchSize threshold now owner rest store2 claimed
    else
      claimLoop batchSize threshold now owner rest store claimed

/-- Candidate preparation (documents.service.ts:700-714): concatenate the
pending and stale scan results, deduplicate by id with JS `Map` semantics
(first-insertion order, last value wins), sort ascending by `created_at`
(JS `Array.sort` is stable; `insertionSort` with strict `<` matches), and
take at most `batchSize * 2`. -/
def candidateTasks (pendingTasks staleTasks : List CandidateTask)
    (batchSize : Nat) : List CandidateTask :=
  let all := pendingTasks ++ staleTasks
  let uniq := (all.foldl (fun m t => jsAssign m t.id t) []).map (fun e => e.2)
  (uniq.insertionSort (fun a b => a.created_at < b.created_at)).take (batchSize * 2)

/-- The scan-and-claim phase of `processDocumentTasks`
(documents.service.ts:675-787): if either scan query failed the whole run
fails; otherwise the claim loop runs over the prepared candidates and returns
the claimed ids and the updated store. -/
def processDocumentTasksClaimPhase
    (pendingQuery staleQuery : Except String (List CandidateTask))
    (batchSize : Nat) (threshold now : Int) (owner : String) (store : Store) :
    Except String (List String × Store) :=
  match pendingQuery, staleQuery with
  | .ok pendingTasks, .ok staleTasks =>
    .ok (claimLoop batchSize threshold now owner
      (candidateTasks pendingTasks staleTasks batchSize) store [])
  | .error _, _ => .error "Nie udało się pobrać tasków do przetworzenia"
  | _, .error _ => .error "Nie udało się pobrać tasków do przetworzenia"

end TaskClaimScheduler

section DerivedDefinitions

/-!
## Derived observables of the pipeline

The per-participant loop of `processSingleTask` determines, for each
participant id, the appended `output_files` entry and whether the iteration
counts as an error, independently of the accumulated state.  The following
closed forms are proved equal to the loop's behaviour below.
-/

/-- Whether a participant id resolves in the fetched sheet data
(`participantsData.find(p => p.id === participantId)`). -/
def isFound (participantsData : List Participant) (pid : Int) : Bool :=
  (participantsData.find? (fun p => plookup p "id" = some (.vnum pid))).isSome

/-- The `output_files` entry the loop appends for a participant id. -/
def entryFor (participantsData : List Participant) (templateName : String)
    (provider : Int → ProviderOutcome) (pid : Int) : OutputFile :=
  match participantsData.find? (fun p => plookup p "id" = some (.vnum pid)) with
  | none =>
    { participantId := pid
      pdfFileId := ""
      name := "participant-" ++ toString pid ++ ".pdf"
      error := some ("Uczestnik o ID " ++ toString pid ++
        " nie został znaleziony w arkuszu") }
  | some participant =>
    match generateFileNameForTask participant pid templateName with
    | none =>
      { participantId := pid
        pdfFileId := ""
        name := "participant-" ++ toString pid ++ ".pdf"
        error := some "TypeError" }
    | some fileName =>
      match provider pid with
      | .ok doc pdf =>
        { participantId := pid, docFileId := some doc
          pdfFileId := pdf, name := fileName }
      | .failEarly msg =>
        { participantId := pid, pdfFileId := "", name := fileName
          error := some (jsOrStr msg "Nieznany błąd podczas generowania PDF") }
      | .failLate doc msg =>
        { participantId := pid, docFileId := some doc
          pdfFileId := "", name := fileName
          error := some (jsOrStr msg "Nieznany błąd podczas generowania PDF") }

/-- Whether the iteration for a participant id sets `hasErrors`. -/
def erroredFor (participantsData : List Participant) (templateName : String)
    (provider : Int → ProviderOutcome) (pid : Int) : Bool :=
  match participantsData.find? (fun p => plookup p "id" = some (.vnum pid)) with
  | none => true
  | some participant =>
    match generateFileNameForTask participant pid templateName with
    | none => true
    | some _ =>
      match provider pid with
      | .ok _ _ => false
      | _ => true

/-- A resolved participant whose file name generates without a TypeError. -/
def participantOkFor (participantsData : List Participant) (templateName : String)
    (pid : Int) : Bool :=
  match participantsData.find? (fun p => plookup p "id" = some (.vnum pid)) with
  | none => false
  | some participant => (generateFileNameForTask participant pid templateName).isSome

/-- The provider pipeline succeeds for a participant id. -/
def provOkFor (provider : Int → ProviderOutcome) (pid : Int) : Bool :=
  match provider pid with
  | .ok _ _ => true
  | _ => false

/-- Recognizes the in-loop persist events (`progress_done`/`output_files`
updates) in a trace. -/
def isProgressStore : TraceEv → Bool
  | .store (.progressWrite _ _) => true
  | _ => false

/-- The task-row lock/status invariant of the data model:
`status = processing` exactly when both lock columns are set, and a terminal
status implies both are clear. -/
def lockInvariant (r : TaskRow) : Prop :=
  (r.status = .processing ↔ (r.locked_at ≠ none ∧ r.locked_by ≠ none)) ∧
  ((r.status = .done ∨ r.status = .failed) → (r.locked_at = none ∧ r.locked_by = none))

instance (r : TaskRow) : Decidable (lockInvariant r) := by
  unfold lockInvariant; infer_instance

end DerivedDefinitions

section Fixtures

/-! ## Concrete fixtures used by witnesses and counterexamples -/

/-- A 429 rate-limit error (retryable). -/
def errRateLimited : DriveError := { code := some 429, message := "Rate Limit Exceeded" }

/-- A 500 error carried in `response.status` (retryable). -/
def errServer : DriveError := { responseStatus := some 500, message := "Internal error" }

/-- A 503 error carried in `status` (retryable). -/
def errUnavailable : DriveError := { status := some 503, message := "Service Unavailable" }

/-- A 400 error (not retryable). -/
def errBadRequest : DriveError := { code := some 400, message := "Invalid request" }

/-- An operation that fails retryably twice, then succeeds. -/
def flakyCall : Nat → Except DriveError Nat :=
  fun n => if n = 0 then .error errServer else if n = 1 then .error errUnavailable else .ok 7

/-- An operation that always fails non-retryably. -/
def failHardCall : Nat → Except DriveError Nat := fun _ => .error errBadRequest

/-- Sheet participant with id 1. -/
def pAnn1 : Participant :=
  [("id", .vnum 1), ("first_name", .vstr "Ann"), ("last_name", .vstr "Kowalska")]

/-- Sheet participant with id 3. -/
def pBob3 : Participant :=
  [("id", .vnum 3), ("first_name", .vstr "Bob"), ("last_name", .vstr "Nowak")]

/-- A provider that succeeds for every participant. -/
def provOkC : Int → ProviderOutcome :=
  fun pid => .ok ("doc" ++ toString pid) ("pdf" ++ toString pid)

/-- Fresh task over participants `[1, 2, 3]` (`output_files` still NULL). -/
def taskC3 : FetchedTask := { participant_ids := [1, 2, 3], output_files := none, progress_total := 3 }

/-- Sheet data in which participant id 2 is absent. -/
def sheetAnnBob : List Participant := [pAnn1, pBob3]

/-- An `output_files` entry left over from a crashed previous run. -/
def prevEntryC2 : OutputFile :=
  { participantId := 1, docFileId := some "doc-old", pdfFileId := "pdf-old"
    name := "T - Kowalska Ann.pdf" }

/-- A reclaimed stale task: one participant, one entry already persisted by
the crashed run (the DB row also has `progress_done = 1`, but that column is
not fetched). -/
def taskC2 : FetchedTask :=
  { participant_ids := [1], output_files := some [prevEntryC2], progress_total := 1 }

/-- The entry the re-run appends for participant 1 under `provOkC`. -/
def okEntry1 : OutputFile :=
  { participantId := 1, docFileId := some "doc1", pdfFileId := "pdf1"
    name := "T - Kowalska Ann.pdf" }

/-- Fresh task whose only participant id (2) is absent from the sheet. -/
def taskC8 : FetchedTask := { participant_ids := [2], output_files := none, progress_total := 1 }

/-- The spec's example participant `{first_name: "Ann", age: null}`. -/
def pAnnAge : Participant := [("first_name", .vstr "Ann"), ("age", .vnull)]

/-- The spec's example mapping `[{placeholder: "name", participantKey: "first_name"}]`. -/
def nameMapping : List Mapping := [{ placeholder := "name", participantKey := "first_name" }]

/-- Participant with names but no explicit id field. -/
def pAnnBo : Participant := [("first_name", .vstr "Ann"), ("last_name", .vstr "Bo")]

/-- Fresh single-participant task. -/
def taskC10 : FetchedTask := { participant_ids := [1], output_files := none, progress_total := 1 }

end Fixtures

section RetryTheorems

/-! ## Lemmas about `withRetry` -/

/-- A successful invocation stops the loop at once. -/
theorem withRetryGo_ok {α : Type} (fn : Nat → Except DriveError α) (b a r : Nat)
    (v : α) (h : fn a = .ok v) : withRetryGo fn b a r = ⟨.ok v, 1, []⟩ := by
  unfold withRetryGo
  rw [h]

/-- A non-retryable error stops the loop and is rethrown unchanged. -/
theorem withRetryGo_error_stop {α : Type} (fn : Nat → Except DriveError α)
    (b a r : Nat) (e : DriveError) (h : fn a = .error e)
    (hr : isRetryableDriveError e = false) :
    withRetryGo fn b a r = ⟨.error e, 1, []⟩ := by
  unfold withRetryGo
  rw [h]
  simp [hr]

/-- On the last permitted attempt any error is rethrown unchanged. -/
theorem withRetryGo_error_exhausted {α : Type} (fn : Nat → Except DriveError α)
    (b a : Nat) (e : DriveError) (h : fn a = .error e) :
    withRetryGo fn b a 0 = ⟨.error e, 1, []⟩ := by
  unfold withRetryGo
  rw [h]
  by_cases hr : isRetryableDriveError e = false <;> simp [hr]

/-- A retryable error with attempts left sleeps `baseDelayMs * 2 ^ attempt0`
and re-invokes the operation. -/
theorem withRetryGo_error_retry {α : Type} (fn : Nat → Except DriveError α)
    (b a r : Nat) (e : DriveError) (h : fn a = .error e)
    (hr : isRetryableDriveError e = true) :
    withRetryGo fn b a (r + 1) =
      ⟨(withRetryGo fn b (a + 1) r).result,
       (withRetryGo fn b (a + 1) r).invocations + 1,
       b * 2 ^ a :: (withRetryGo fn b (a + 1) r).delays⟩ := by
  conv_lhs => rw [withRetryGo]
  rw [h]
  simp [hr]

/-- C4.  The retry wrapper on an arbitrary operation: an operation failing
twice with a retryable error and succeeding on the third attempt is invoked
exactly 3 times, the delay before retry `k + 1` is `baseDelay * 2 ^ (k - 1)`,
and the wrapper returns the success value; an operation failing once with a
non-retryable error is invoked exactly once and that original error
propagates unchanged. -/
theorem c4_withRetry_schedule (maxAttempts baseDelay : Nat)
    (fn g : Nat → Except DriveError Nat) (e1 e2 e3 : DriveError) (v : Nat)
    (hm : 3 ≤ maxAttempts)
    (h0 : fn 0 = .error e1) (h1 : fn 1 = .error e2) (h2 : fn 2 = .ok v)
    (hr1 : isRetryableDriveError e1 = true) (hr2 : isRetryableDriveError e2 = true)
    (hg : g 0 = .error e3) (hnr : isRetryableDriveError e3 = false) :
    withRetry fn maxAttempts baseDelay =
      { result := .ok v, invocations := 3
        delays := [baseDelay * 2 ^ 0, baseDelay * 2 ^ 1] } ∧
    withRetry g maxAttempts baseDelay =
      { result := .error e3, invocations := 1, delays := [] } := by
  obtain ⟨k, rfl⟩ : ∃ k, maxAttempts = k + 3 := ⟨maxAttempts - 3, by omega⟩
  constructor
  · show withRetryGo fn baseDelay 0 (k + 3 - 1) = _
    have hk : k + 3 - 1 = (k + 1) + 1 := by omega
    rw [hk, withRetryGo_error_retry fn baseDelay 0 (k + 1) e1 h0 hr1,
      withRetryGo_error_retry fn baseDelay 1 k e2 h1 hr2,
      withRetryGo_ok fn baseDelay 2 k v h2]
  · show withRetryGo g baseDelay 0 (k + 3 - 1) = _
    exact withRetryGo_error_stop g baseDelay 0 (k + 3 - 1) e3 hg hnr

/-- Witness for C4 at `maxAttempts = 6`, `baseDelay = 500`: the flaky
operation is invoked 3 times with delays `[500, 1000]` and returns 7; the
non-retryable one is invoked once and its error is returned unchanged. -/
theorem c4_withRetry_schedule_witness :
    (3 ≤ 6 ∧ flakyCall 0 = .error errServer ∧ flakyCall 1 = .error errUnavailable ∧
      flakyCall 2 = .ok 7 ∧ isRetryableDriveError errServer = true ∧
      isRetryableDriveError errUnavailable = true ∧
      failHardCall 0 = .error errBadRequest ∧
      isRetryableDriveError errBadRequest = false) ∧
    (withRetry flakyCall 6 500 =
      { result := .ok 7, invocations := 3, delays := [500 * 2 ^ 0, 500 * 2 ^ 1] } ∧
     withRetry failHardCall 6 500 =
      { result := .error errBadRequest, invocations := 1, delays := [] }) :=
  ⟨by decide,
   c4_withRetry_schedule 6 500 flakyCall failHardCall errServer errUnavailable
     errBadRequest 7 (by decide) (by decide) (by decide) (by decide) (by decide)
     (by decide) (by decide) (by decide)⟩

/-- C1 (amended).  Among the document provider operations, only file deletion
runs its remote call under the retry policy (`withRetry`, attempt cap 4, base
delay 500 ms, with the error swallowed afterwards): copy, substitute, export
and upload each perform their remote call exactly once — also on a retryable
error — and propagate a wrapped error without any re-invocation. -/
theorem c1_only_delete_is_retried
    (copyCall : Except DriveError (Option String))
    (getCall batchCall : Except DriveError Unit)
    (replacements : List (String × String))
    (exportCall : Except DriveError String)
    (createCall : Except DriveError (Option String))
    (deleteCall : Nat → Except DriveError Unit) :
    (copyTemplateDoc true copyCall).2 = 1 ∧
    (1 ≤ (replacePlaceholders true getCall batchCall replacements).2 ∧
      (replacePlaceholders true getCall batchCall replacements).2 ≤ 2) ∧
    (exportPdf true exportCall).2 = 1 ∧
    (uploadPdfToDrive true createCall).2 = 1 ∧
    (deleteFile true deleteCall).2 = (withRetry deleteCall 4 500).invocations ∧
    (deleteFile true deleteCall).1 = .ok () := by
  refine ⟨?_, ?_, ?_, ?_, rfl, rfl⟩
  · rcases copyCall with e | o
    · simp [copyTemplateDoc]
    · rcases o with _ | id <;> simp [copyTemplateDoc]
  · rcases getCall with e | u
    · simp [replacePlaceholders]
    · by_cases h : replacements.length = 0
      · simp [replacePlaceholders, h]
      · rcases batchCall with e | u <;> simp [replacePlaceholders, h]
  · rcases exportCall with e | buf <;> simp [exportPdf]
  · rcases createCall with e | o
    · simp [uploadPdfToDrive]
    · rcases o with _ | id <;> simp [uploadPdfToDrive]

/-- Counterexample to C1 as stated: `copyTemplateDoc` hit by a retryable
429 rate-limit error performs exactly one remote invocation and propagates
the (wrapped) error — it is not re-invoked, although the retry policy (shown
on the same error for contrast) would have re-invoked it up to the cap of 6. -/
theorem c1_counterexample_copy_not_retried :
    isRetryableDriveError errRateLimited = true ∧
    (copyTemplateDoc true (.error errRateLimited)).2 = 1 ∧
    (copyTemplateDoc true (.error errRateLimited)).1 =
      .error (.internal "Nie udało się skopiować dokumentu: Rate Limit Exceeded") ∧
    (withRetry (fun _ => (.error errRateLimited : Except DriveError Nat)) 6 500).invocations = 6 := by
  decide

end RetryTheorems

section ReplacementsTheorems

/-! ## Lemmas about `jsAssign` folds and the replacement builders -/

/-- Folding JS object assignments with pairwise fresh keys over an object is
plain concatenation: each assignment appends a new key. -/
theorem foldl_jsAssign_keyed {β γ : Type} (key : γ → String) (val : γ → β)
    (l : List γ) : ∀ acc : List (String × β),
    (∀ e ∈ l, ∀ a ∈ acc, a.1 ≠ key e) → (l.map key).Nodup →
    l.foldl (fun a e => jsAssign a (key e) (val e)) acc =
      acc ++ l.map (fun e => (key e, val e)) := by
  induction l with
  | nil => intro acc _ _; simp
  | cons x xs ih =>
    intro acc hdisj hnd
    simp only [List.foldl_cons, List.map_cons]
    have hnotin : ¬ acc.any (fun e => e.1 = key x) = true := by
      intro h
      obtain ⟨a, ha, hpa⟩ := List.any_eq_true.mp h
      exact hdisj x (List.mem_cons_self x xs) a ha (of_decide_eq_true hpa)
    have hx : jsAssign acc (key x) (val x) = acc ++ [(key x, val x)] := by
      unfold jsAssign
      rw [if_neg hnotin]
    rw [hx, ih]
    · simp
    · intro e he a ha
      rcases List.mem_append.mp ha with h1 | h1
      · exact hdisj e (List.mem_cons_of_mem x he) a h1
      · have ha2 : a = (key x, val x) := by simpa using h1
        subst ha2
        have hx' : key x ∉ xs.map key := (List.nodup_cons.mp hnd).1
        intro hcontra
        have hke : key x = key e := hcontra
        exact hx' (by rw [hke]; exact List.mem_map_of_mem key he)
    · exact (List.nodup_cons.mp hnd).2

/-- C5.  With at least one placeholder mapping, the replacements object has
exactly one key per mapping, in mapping order, sending each placeholder to
the stringified `participant[participantKey]` (null/undefined ↦ `""`), and no
other keys; with no mappings it has every participant field keyed by its own
name, same null handling. -/
theorem c5_buildReplacements (p : Participant) (ms : List Mapping)
    (hms : ms ≠ [])
    (hnd : (ms.map (fun m => m.placeholder)).Nodup)
    (hpk : (p.map Prod.fst).Nodup) :
    buildReplacementsForParticipant p (some ms) =
      ms.map (fun m => (m.placeholder, stringifyOpt (plookup p m.participantKey))) ∧
    buildReplacementsForParticipant p none =
      p.map (fun e => (e.1, stringifyOpt (some e.2))) := by
  constructor
  · unfold buildReplacementsForParticipant
    dsimp only
    rw [if_pos (List.length_pos.mpr hms)]
    exact foldl_jsAssign_keyed (fun m => m.placeholder)
      (fun m => stringifyOpt (plookup p m.participantKey)) ms [] (by simp) hnd
  · unfold buildReplacementsForParticipant
    exact foldl_jsAssign_keyed Prod.fst (fun e => stringifyOpt (some e.2)) p
      [] (by simp) hpk

/-- Witness for C5 on the spec's two examples: mapping
`[{placeholder: "name", participantKey: "first_name"}]` on `{first_name:
"Ann"}` yields `{"name": "Ann"}` only, and no mappings on `{first_name:
"Ann", age: null}` yields `{"first_name": "Ann", "age": ""}`. -/
theorem c5_buildReplacements_witness :
    (nameMapping ≠ [] ∧ (nameMapping.map (fun m => m.placeholder)).Nodup ∧
      (pAnnAge.map Prod.fst).Nodup) ∧
    (buildReplacementsForParticipant pAnnAge (some nameMapping) = [("name", "Ann")] ∧
     buildReplacementsForParticipant pAnnAge none = [("first_name", "Ann"), ("age", "")]) :=
  ⟨⟨by decide, by decide, by decide⟩,
   c5_buildReplacements pAnnAge nameMapping (by decide) (by decide) (by decide)⟩

end ReplacementsTheorems

section FileNameTheorems

/-- C9 (amended).  The task output name is deterministic: with both (sheet)
names truthy it is
`"<sanitized template> - <sanitized last> <sanitized first>.pdf"` — the
participant id does **not** occur — and with a missing or empty name it falls
back to `"<sanitized template> - participant-<id>.pdf"`.  In particular the
name with names present is the same for any two participant ids. -/
theorem c9_generateFileNameForTask (p : Participant) (pid pid' : Int)
    (tname f l : String)
    (hf : taskFirstName p = .vstr f) (hl : taskLastName p = .vstr l) :
    generateFileNameForTask p pid tname =
      (if f = "" ∨ l = "" then
        some (sanitizeName tname ++ " - participant-" ++ toString pid ++ ".pdf")
      else
        some (sanitizeName tname ++ " - " ++ sanitizeName l ++ " " ++
          sanitizeName f ++ ".pdf")) ∧
    (¬ f = "" → ¬ l = "" →
      generateFileNameForTask p pid tname = generateFileNameForTask p pid' tname) := by
  have key : ∀ q : Int, generateFileNameForTask p q tname =
      if f = "" ∨ l = "" then
        some (sanitizeName tname ++ " - participant-" ++ toString q ++ ".pdf")
      else
        some (sanitizeName tname ++ " - " ++ sanitizeName l ++ " " ++
          sanitizeName f ++ ".pdf") := by
    intro q
    unfold generateFileNameForTask
    rw [hf, hl]
    by_cases h1 : f = "" <;> by_cases h2 : l = "" <;>
      simp [PValue.truthy, h1, h2]
  refine ⟨key pid, fun h1 h2 => ?_⟩
  rw [key pid, key pid']
  simp [h1, h2]

/-- Witness for C9's amended statement on a participant with names
`Ann Bo` and template `T`. -/
theorem c9_generateFileNameForTask_witness :
    (taskFirstName pAnnBo = .vstr "Ann" ∧ taskLastName pAnnBo = .vstr "Bo") ∧
    (generateFileNameForTask pAnnBo 1 "T" = some "T - Bo Ann.pdf" ∧
     (¬ ("Ann" : String) = "" → ¬ ("Bo" : String) = "" →
       generateFileNameForTask pAnnBo 1 "T" = generateFileNameForTask pAnnBo 2 "T")) :=
  ⟨⟨by decide, by decide⟩,
   c9_generateFileNameForTask pAnnBo 1 2 "T" "Ann" "Bo" (by decide) (by decide)⟩

/-- Counterexample to C9 as stated: with names present the derived name is
**not** built from the participant id — participants 1 and 2 with the same
names and template get the identical name `"T - Bo Ann.pdf"`, which does not
mention either id. -/
theorem c9_counterexample_name_ignores_id :
    generateFileNameForTask pAnnBo 1 "T" = some "T - Bo Ann.pdf" ∧
    generateFileNameForTask pAnnBo 2 "T" = some "T - Bo Ann.pdf" ∧
    generateFileNameForTask pAnnBo 1 "T" = generateFileNameForTask pAnnBo 2 "T" := by
  decide

end FileNameTheorems

section PipelineLemmas

/-! ## Characterizing the participant loop -/

/-- Every branch of the loop body stores the id being processed in the
appended entry. -/
theorem entryFor_participantId (pd : List Participant) (tn : String)
    (prov : Int → ProviderOutcome) (pid : Int) :
    (entryFor pd tn prov pid).participantId = pid := by
  unfold entryFor
  cases pd.find? (fun p => plookup p "id" = some (.vnum pid)) with
  | none => rfl
  | some participant =>
    dsimp only
    cases generateFileNameForTask participant pid tn with
    | none => rfl
    | some fileName =>
      dsimp only
      cases prov pid <;> rfl

/-- An id absent from the sheet data yields the documented error entry and
counts as an error. -/
theorem entryFor_of_not_found (pd : List Participant) (tn : String)
    (prov : Int → ProviderOutcome) (pid : Int) (h : isFound pd pid = false) :
    entryFor pd tn prov pid =
      { participantId := pid
        pdfFileId := ""
        name := "participant-" ++ toString pid ++ ".pdf"
        error := some ("Uczestnik o ID " ++ toString pid ++
          " nie został znaleziony w arkuszu") } ∧
    erroredFor pd tn prov pid = true := by
  unfold isFound at h
  unfold entryFor erroredFor
  cases hf : pd.find? (fun p => plookup p "id" = some (.vnum pid)) with
  | none => simp
  | some participant => rw [hf] at h; simp at h

/-- A resolved participant with a generating file name and a succeeding
provider yields a success entry and no error flag. -/
theorem entryFor_of_ok (pd : List Participant) (tn : String)
    (prov : Int → ProviderOutcome) (pid : Int)
    (h1 : participantOkFor pd tn pid = true)
    (h2 : provOkFor prov pid = true) :
    erroredFor pd tn prov pid = false ∧ (entryFor pd tn prov pid).error = none := by
  unfold participantOkFor at h1
  unfold provOkFor at h2
  unfold erroredFor entryFor
  cases hf : pd.find? (fun p => plookup p "id" = some (.vnum pid)) with
  | none => rw [hf] at h1; simp at h1
  | some participant =>
    rw [hf] at h1
    dsimp only at h1 ⊢
    cases hn : generateFileNameForTask participant pid tn with
    | none => rw [hn] at h1; simp at h1
    | some fileName =>
      dsimp only
      cases hp : prov pid with
      | ok doc pdf => simp
      | failEarly msg => rw [hp] at h2; simp at h2
      | failLate doc msg => rw [hp] at h2; simp at h2

/-- The loop body appends exactly the entry `entryFor`, advances progress by
one, and ORs in `erroredFor`. -/
theorem processParticipant_fst (pd : List Participant)
    (mappings : Option (List Mapping)) (tn : String)
    (prov : Int → ProviderOutcome) (st : LoopState) (pid : Int) :
    (processParticipant pd mappings tn prov st pid).1 =
      { outputFiles := st.outputFiles ++ [entryFor pd tn prov pid]
        progressDone := st.progressDone + 1
        hasErrors := st.hasErrors || erroredFor pd tn prov pid } := by
  unfold processParticipant entryFor erroredFor
  cases hf : pd.find? (fun p => plookup p "id" = some (.vnum pid)) with
  | none => simp
  | some participant =>
    dsimp only
    cases hn : generateFileNameForTask participant pid tn with
    | none => simp
    | some fileName => dsimp only

/-- The loop body emits exactly one in-loop persist when the participant is
resolved and none when it is not. -/
theorem processParticipant_progressCount (pd : List Participant)
    (mappings : Option (List Mapping)) (tn : String)
    (prov : Int → ProviderOutcome) (st : LoopState) (pid : Int) :
    ((processParticipant pd mappings tn prov st pid).2.countP isProgressStore) =
      if isFound pd pid then 1 else 0 := by
  unfold processParticipant isFound
  cases hf : pd.find? (fun p => plookup p "id" = some (.vnum pid)) with
  | none => simp
  | some participant =>
    dsimp only
    cases hn : generateFileNameForTask participant pid tn with
    | none => simp [List.countP_cons, isProgressStore]
    | some fileName =>
      dsimp only
      cases hp : prov pid <;> simp [List.countP_cons, isProgressStore]

/-- Closed form of the whole loop: the final state appends one `entryFor`
entry per id in list order, advances progress by the number of ids, and sets
`hasErrors` iff some id errored. -/
theorem runParticipants_fst (pd : List Participant)
    (mappings : Option (List Mapping)) (tn : String)
    (prov : Int → ProviderOutcome) (ids : List Int) : ∀ st : LoopState,
    (runParticipants pd mappings tn prov ids st).1 =
      { outputFiles := st.outputFiles ++ ids.map (entryFor pd tn prov)
        progressDone := st.progressDone + ids.length
        hasErrors := st.hasErrors || ids.any (erroredFor pd tn prov) } := by
  induction ids with
  | nil => intro st; simp [runParticipants]
  | cons pid rest ih =>
    intro st
    show (runParticipants pd mappings tn prov rest
      (processParticipant pd mappings tn prov st pid).1).1 = _
    rw [ih, processParticipant_fst]
    simp only [LoopState.mk.injEq, List.map_cons, List.length_cons, List.any_cons]
    refine ⟨by simp, by omega, by simp [Bool.or_assoc]⟩

/-- The loop emits exactly one in-loop persist per resolved id. -/
theorem runParticipants_progressCount (pd : List Participant)
    (mappings : Option (List Mapping)) (tn : String)
    (prov : Int → ProviderOutcome) (ids : List Int) : ∀ st : LoopState,
    ((runParticipants pd mappings tn prov ids st).2.countP isProgressStore) =
      ids.countP (fun pid => isFound pd pid) := by
  induction ids with
  | nil => intro st; simp [runParticipants]
  | cons pid rest ih =>
    intro st
    show (((processParticipant pd mappings tn prov st pid).2 ++
      (runParticipants pd mappings tn prov rest
        (processParticipant pd mappings tn prov st pid).1).2).countP isProgressStore) = _
    rw [List.countP_append, processParticipant_progressCount, ih, List.countP_cons]
    by_cases h : isFound pd pid <;> simp [h, Nat.add_comm]

/-- Closed form of the final state of `processSingleTask`'s loop. -/
theorem processSingleTask_fst (task : FetchedTask) (pd : List Participant)
    (mq : Except String (List Mapping)) (tname : String)
    (prov : Int → ProviderOutcome) :
    (processSingleTask task pd mq tname prov).1 =
      { outputFiles := task.output_files.getD [] ++
          task.participant_ids.map (entryFor pd tname prov)
        progressDone := task.participant_ids.length
        hasErrors := task.participant_ids.any (erroredFor pd tname prov) } := by
  show (runParticipants pd (getMappingsForTemplate mq) tname prov task.participant_ids
    { outputFiles := task.output_files.getD [], progressDone := 0, hasErrors := false }).1 = _
  rw [runParticipants_fst]
  simp

/-- The last event of a `processSingleTask` trace is the terminal write of
the final state. -/
theorem processSingleTask_lastWrite (task : FetchedTask) (pd : List Participant)
    (mq : Except String (List Mapping)) (tname : String)
    (prov : Int → ProviderOutcome) :
    (processSingleTask task pd mq tname prov).2.getLast? =
      some (.store (.finalWrite (processSingleTask task pd mq tname prov).1.hasErrors
        (processSingleTask task pd mq tname prov).1.progressDone
        (processSingleTask task pd mq tname prov).1.outputFiles)) := by
  show ((runParticipants pd (getMappingsForTemplate mq) tname prov task.participant_ids
      { outputFiles := task.output_files.getD [], progressDone := 0, hasErrors := false }).2 ++
    [TraceEv.store (.finalWrite _ _ _)]).getLast? = _
  rw [List.getLast?_concat]
  rfl

end PipelineLemmas

section PipelineTheorems

/-- C3.  For a claimed task one of whose participant ids has no matching
record: processing appends exactly one `output_files` entry per participant
id, in list order; the absent id's entry has an empty final-asset id and a
non-empty error; progress still advances to the full list length; and the
terminal write sets status `failed`. -/
theorem c3_missing_participant_isolated (task : FetchedTask)
    (pd : List Participant) (mq : Except String (List Mapping)) (tname : String)
    (prov : Int → ProviderOutcome) (k : Nat)
    (hk : k < task.participant_ids.length)
    (habsent : isFound pd (task.participant_ids.get ⟨k, hk⟩) = false) :
    (processSingleTask task pd mq tname prov).1.outputFiles =
      task.output_files.getD [] ++ task.participant_ids.map (entryFor pd tname prov) ∧
    (task.participant_ids.map (entryFor pd tname prov)).map (fun f => f.participantId) =
      task.participant_ids ∧
    (entryFor pd tname prov (task.participant_ids.get ⟨k, hk⟩)).pdfFileId = "" ∧
    (entryFor pd tname prov (task.participant_ids.get ⟨k, hk⟩)).error =
      some ("Uczestnik o ID " ++ toString (task.participant_ids.get ⟨k, hk⟩) ++
        " nie został znaleziony w arkuszu") ∧
    ("Uczestnik o ID " ++ toString (task.participant_ids.get ⟨k, hk⟩) ++
      " nie został znaleziony w arkuszu") ≠ "" ∧
    (processSingleTask task pd mq tname prov).1.progressDone =
      task.participant_ids.length ∧
    (processSingleTask task pd mq tname prov).2.getLast? =
      some (.store (.finalWrite true task.participant_ids.length
        (processSingleTask task pd mq tname prov).1.outputFiles)) := by
  have hentry := entryFor_of_not_found pd tname prov
    (task.participant_ids.get ⟨k, hk⟩) habsent
  have hfst := processSingleTask_fst task pd mq tname prov
  have herr : task.participant_ids.any (erroredFor pd tname prov) = true :=
    List.any_eq_true.mpr
      ⟨task.participant_ids.get ⟨k, hk⟩, List.get_mem _ _ _, hentry.2⟩
  refine ⟨by rw [hfst], ?_, ?_, ?_, ?_, by rw [hfst], ?_⟩
  · rw [List.map_map]
    have hcomp : ((fun f => f.participantId) ∘ entryFor pd tname prov) = id :=
      funext (fun pid => entryFor_participantId pd tname prov pid)
    rw [hcomp, List.map_id]
  · rw [hentry.1]
  · rw [hentry.1]
  · intro hcontra
    have hlen := congrArg String.length hcontra
    rw [String.length_append, String.length_append] at hlen
    have h15 : ("Uczestnik o ID " : String).length = 15 := rfl
    have h0 : ("" : String).length = 0 := rfl
    omega
  · rw [processSingleTask_lastWrite, hfst]
    simp [herr]

/-- Witness for C3: task over ids `[1, 2, 3]` with id 2 absent from the sheet
and a succeeding provider — three entries in order, the middle one an error
entry, progress 3, terminal status failed. -/
theorem c3_missing_participant_isolated_witness :
    ((1 : Nat) < taskC3.participant_ids.length ∧
      isFound sheetAnnBob 2 = false) ∧
    ((processSingleTask taskC3 sheetAnnBob (.ok []) "T" provOkC).1.outputFiles =
        taskC3.output_files.getD [] ++
          taskC3.participant_ids.map (entryFor sheetAnnBob "T" provOkC) ∧
      (taskC3.participant_ids.map (entryFor sheetAnnBob "T" provOkC)).map
          (fun f => f.participantId) = taskC3.participant_ids ∧
      (entryFor sheetAnnBob "T" provOkC 2).pdfFileId = "" ∧
      (entryFor sheetAnnBob "T" provOkC 2).error =
        some ("Uczestnik o ID " ++ toString (2 : Int) ++
          " nie został znaleziony w arkuszu") ∧
      ("Uczestnik o ID " ++ toString (2 : Int) ++
        " nie został znaleziony w arkuszu") ≠ "" ∧
      (processSingleTask taskC3 sheetAnnBob (.ok []) "T" provOkC).1.progressDone =
        taskC3.participant_ids.length ∧
      (processSingleTask taskC3 sheetAnnBob (.ok []) "T" provOkC).2.getLast? =
        some (.store (.finalWrite true taskC3.participant_ids.length
          (processSingleTask taskC3 sheetAnnBob (.ok []) "T" provOkC).1.outputFiles))) :=
  ⟨⟨by decide, by decide⟩,
   c3_missing_participant_isolated taskC3 sheetAnnBob (.ok []) "T" provOkC 1
     (by decide) (by decide)⟩

/-- C8 (amended).  The in-loop persist of `progress_done`/`output_files`
happens exactly once per participant whose record was resolved — a
missing-participant iteration `continue`s before it, so its error entry is
only persisted by a later participant's write or the terminal write, which
always persists the final progress and files. -/
theorem c8_persist_per_resolved_participant (task : FetchedTask)
    (pd : List Participant) (mq : Except String (List Mapping)) (tname : String)
    (prov : Int → ProviderOutcome) :
    ((processSingleTask task pd mq tname prov).2.countP isProgressStore) =
      task.participant_ids.countP (fun pid => isFound pd pid) ∧
    (processSingleTask task pd mq tname prov).2.getLast? =
      some (.store (.finalWrite (processSingleTask task pd mq tname prov).1.hasErrors
        (processSingleTask task pd mq tname prov).1.progressDone
        (processSingleTask task pd mq tname prov).1.outputFiles)) := by
  refine ⟨?_, processSingleTask_lastWrite task pd mq tname prov⟩
  show (((runParticipants pd (getMappingsForTemplate mq) tname prov task.participant_ids
      { outputFiles := task.output_files.getD [], progressDone := 0, hasErrors := false }).2 ++
    [TraceEv.store (.finalWrite _ _ _)]).countP isProgressStore) = _
  rw [List.countP_append, runParticipants_progressCount]
  simp [List.countP_cons, isProgressStore]

/-- Counterexample to C8 as stated: a task whose single participant id is
absent from the sheet performs **no** in-loop persist at all — the only store
write of the whole run is the terminal one, although the claim requires a
persist after every participant including failed lookups. -/
theorem c8_counterexample_no_persist_for_missing :
    taskC8.participant_ids.length = 1 ∧
    (processSingleTask taskC8 sheetAnnBob (.ok []) "T" provOkC).2 =
      [.store (.finalWrite true 1
        [{ participantId := 2, pdfFileId := ""
           name := "participant-2.pdf"
           error := some "Uczestnik o ID 2 nie został znaleziony w arkuszu" }])] ∧
    ((processSingleTask taskC8 sheetAnnBob (.ok []) "T" provOkC).2.countP
      isProgressStore) = 0 := by
  decide

/-- C2 evaluated at the failing input: reclaiming a stale task whose row
already holds one persisted entry for participant 1 (the fetch omits
`progress_done`, so the loop restarts it at 0 while keeping the old
`output_files`) persists `progress_done = 1` together with **two** entries,
both keyed by participant 1 — breaking both halves of the invariant. -/
theorem c2_reclaim_breaks_output_invariant :
    (processSingleTask taskC2 sheetAnnBob (.ok []) "T" provOkC).2 =
      [.generate 1 [("id", "1"), ("first_name", "Ann"), ("last_name", "Kowalska")]
         "T - Kowalska Ann.pdf",
       .store (.progressWrite 1 [prevEntryC2, okEntry1]),
       .store (.finalWrite false 1 [prevEntryC2, okEntry1])] ∧
    ([prevEntryC2, okEntry1].length = 2 ∧ ¬ (2 = 1)) ∧
    [prevEntryC2, okEntry1].countP (fun f => f.participantId = 1) = 2 := by
  decide

end PipelineTheorems

section MappingsErrorTheorems

/-- C10.  A failing store query for the template's placeholder mappings is
collapsed by `getMappingsForTemplate` to `null`, so the pipeline behaves
exactly as with no mappings: the whole run (trace and final state) is equal
to the run with an empty mappings result, replacements fall back to all
participant fields, and — when every participant resolves and the provider
succeeds — all entries are successes and the terminal write is `done` with a
null error.  Because the run equals one that never saw `e`, the store error
string cannot appear in any persisted status, error field or entry. -/
theorem c10_mappings_error_is_no_mappings (task : FetchedTask)
    (pd : List Participant) (tname : String) (prov : Int → ProviderOutcome)
    (e : String) (q : Participant)
    (hok : task.participant_ids.all
      (fun pid => participantOkFor pd tname pid && provOkFor prov pid) = true) :
    getMappingsForTemplate (.error e) = none ∧
    processSingleTask task pd (.error e) tname prov =
      processSingleTask task pd (.ok []) tname prov ∧
    buildReplacementsForParticipant q (getMappingsForTemplate (.error e)) =
      buildReplacementsForParticipant q none ∧
    (processSingleTask task pd (.error e) tname prov).1.hasErrors = false ∧
    (processSingleTask task pd (.error e) tname prov).1.outputFiles =
      task.output_files.getD [] ++
        task.participant_ids.map (entryFor pd tname prov) ∧
    ((task.participant_ids.map (entryFor pd tname prov)).all
      (fun f => f.error == none)) = true ∧
    (processSingleTask task pd (.error e) tname prov).2.getLast? =
      some (.store (.finalWrite false task.participant_ids.length
        (processSingleTask task pd (.error e) tname prov).1.outputFiles)) := by
  have hpt : ∀ pid ∈ task.participant_ids,
      participantOkFor pd tname pid = true ∧ provOkFor prov pid = true := by
    intro pid hpid
    have hb := List.all_eq_true.mp hok pid hpid
    simp only [Bool.and_eq_true] at hb
    exact hb
  have herrF : task.participant_ids.any (erroredFor pd tname prov) = false := by
    rw [List.any_eq_false]
    intro pid hpid
    have h2 := hpt pid hpid
    have h3 := (entryFor_of_ok pd tname prov pid h2.1 h2.2).1
    simp [h3]
  have hfst := processSingleTask_fst task pd (.error e) tname prov
  refine ⟨rfl, rfl, rfl, ?_, ?_, ?_, ?_⟩
  · rw [hfst]
    exact herrF
  · rw [hfst]
  · rw [List.all_eq_true]
    intro f hf2
    obtain ⟨pid, hpid, rfl⟩ := List.mem_map.mp hf2
    have h2 := hpt pid hpid
    have h3 := (entryFor_of_ok pd tname prov pid h2.1 h2.2).2
    simp [h3]
  · rw [processSingleTask_lastWrite, hfst]
    simp [herrF]

/-- Witness for C10: a one-participant task, participant resolved, provider
succeeding, mappings query failing with `"boom"`. -/
theorem c10_mappings_error_is_no_mappings_witness :
    (taskC10.participant_ids.all
      (fun pid => participantOkFor sheetAnnBob "T" pid && provOkFor provOkC pid) = true) ∧
    (getMappingsForTemplate (.error "boom") = none ∧
     processSingleTask taskC10 sheetAnnBob (.error "boom") "T" provOkC =
       processSingleTask taskC10 sheetAnnBob (.ok []) "T" provOkC ∧
     buildReplacementsForParticipant pAnnAge (getMappingsForTemplate (.error "boom")) =
       buildReplacementsForParticipant pAnnAge none ∧
     (processSingleTask taskC10 sheetAnnBob (.error "boom") "T" provOkC).1.hasErrors = false ∧
     (processSingleTask taskC10 sheetAnnBob (.error "boom") "T" provOkC).1.outputFiles =
       taskC10.output_files.getD [] ++
         taskC10.participant_ids.map (entryFor sheetAnnBob "T" provOkC) ∧
     ((taskC10.participant_ids.map (entryFor sheetAnnBob "T" provOkC)).all
       (fun f => f.error == none)) = true ∧
     (processSingleTask taskC10 sheetAnnBob (.error "boom") "T" provOkC).2.getLast? =
       some (.store (.finalWrite false taskC10.participant_ids.length
         (processSingleTask taskC10 sheetAnnBob (.error "boom") "T" provOkC).1.outputFiles))) :=
  ⟨by decide,
   c10_mappings_error_is_no_mappings taskC10 sheetAnnBob "T" provOkC "boom" pAnnAge
     (by decide)⟩

end MappingsErrorTheorems

section LockInvariantTheorems

/-- C6.  Every task-row write of this core preserves the lock/status
invariant: creation inserts `pending` with both lock columns NULL; the claim
write sets `processing` together with both lock fields; the in-loop progress
write touches neither status nor locks; and every terminal write sets
`done`/`failed` and clears both lock fields in the same update. -/
theorem c6_lock_status_invariant (total : Nat) (r : TaskRow) (w : CoreWrite)
    (now : Int) (owner : String) (he : Bool) (pdv : Nat)
    (files : List OutputFile) (h : lockInvariant r) :
    lockInvariant (createTaskRow total) ∧
    (createTaskRow total).status = .pending ∧
    (createTaskRow total).locked_at = none ∧
    (createTaskRow total).locked_by = none ∧
    lockInvariant (applyWrite r w) ∧
    ((applyWrite r (.claimWrite now owner)).status = .processing ∧
      (applyWrite r (.claimWrite now owner)).locked_at = some now ∧
      (applyWrite r (.claimWrite now owner)).locked_by = some owner) ∧
    ((applyWrite r (.finalWrite he pdv files)).locked_at = none ∧
      (applyWrite r (.finalWrite he pdv files)).locked_by = none ∧
      ((applyWrite r (.finalWrite he pdv files)).status = .done ∨
        (applyWrite r (.finalWrite he pdv files)).status = .failed)) := by
  refine ⟨?_, rfl, rfl, rfl, ?_, ⟨rfl, rfl, rfl⟩, rfl, rfl, ?_⟩
  · simp [lockInvariant, createTaskRow]
  · cases w with
    | claimWrite n o => simp [lockInvariant, applyWrite]
    | progressWrite a b => simpa [lockInvariant, applyWrite] using h
    | templateFailWrite m => simp [lockInvariant, applyWrite]
    | participantsFailWrite m => simp [lockInvariant, applyWrite]
    | finalWrite x a b => cases x <;> simp [lockInvariant, applyWrite]
  · cases he <;> simp [applyWrite]

/-- Witness for C6 at a freshly created row, a progress write, a claim write
and a failing terminal write. -/
theorem c6_lock_status_invariant_witness :
    lockInvariant (createTaskRow 0) ∧
    (lockInvariant (createTaskRow 3) ∧
     (createTaskRow 3).status = .pending ∧
     (createTaskRow 3).locked_at = none ∧
     (createTaskRow 3).locked_by = none ∧
     lockInvariant (applyWrite (createTaskRow 0) (.progressWrite 1 [])) ∧
     ((applyWrite (createTaskRow 0) (.claimWrite 5 "cron-runner")).status = .processing ∧
       (applyWrite (createTaskRow 0) (.claimWrite 5 "cron-runner")).locked_at = some 5 ∧
       (applyWrite (createTaskRow 0) (.claimWrite 5 "cron-runner")).locked_by =
         some "cron-runner") ∧
     ((applyWrite (createTaskRow 0) (.finalWrite true 1 [])).locked_at = none ∧
       (applyWrite (createTaskRow 0) (.finalWrite true 1 [])).locked_by = none ∧
       ((applyWrite (createTaskRow 0) (.finalWrite true 1 [])).status = .done ∨
         (applyWrite (createTaskRow 0) (.finalWrite true 1 [])).status = .failed))) :=
  ⟨by decide,
   c6_lock_status_invariant 3 (createTaskRow 0) (.progressWrite 1 []) 5 "cron-runner"
     true 1 [] (by decide)⟩

end LockInvariantTheorems

section SchedulerLemmas

/-! ## Lemmas about the conditional claim update -/

/-- A keyed update changes only the row with the given id. -/
theorem storeFind_storeUpdate (s : Store) (id id2 : String) (f : TaskRow → TaskRow) :
    storeFind (storeUpdate s id f) id2 =
      if id2 = id then (storeFind s id2).map f else storeFind s id2 := by
  unfold storeFind storeUpdate
  rw [List.find?_map]
  have hpred : ((fun e : String × TaskRow => decide (e.1 = id2)) ∘
      (fun e : String × TaskRow => if e.1 = id then (e.1, f e.2) else e)) =
      (fun e : String × TaskRow => decide (e.1 = id2)) := by
    funext e
    by_cases he : e.1 = id <;> simp [he]
  rw [hpred]
  cases hf : s.find? (fun e => e.1 = id2) with
  | none => by_cases h : id2 = id <;> simp [h]
  | some a =>
    have ha' := List.find?_some hf
    have ha : a.1 = id2 := of_decide_eq_true ha'
    by_cases h : id2 = id
    · subst h
      simp [ha]
    · simp [ha, h]

/-- An update that affected no row left the store unchanged. -/
theorem tryClaim_not_affected (store : Store) (id : String) (cond : TaskRow → Bool)
    (now : Int) (owner : String)
    (h : (tryClaim store id cond now owner).2 = false) :
    (tryClaim store id cond now owner).1 = store := by
  unfold tryClaim at h ⊢
  cases hf : storeFind store id with
  | none => rfl
  | some r =>
    rw [hf] at h
    dsimp only at h ⊢
    by_cases hc : cond r = true
    · rw [if_pos hc] at h; simp at h
    · rw [if_neg hc]

/-- An update that affected a row found it satisfying the WHERE clause and
rewrote it to the claimed state. -/
theorem tryClaim_affected (store : Store) (id : String) (cond : TaskRow → Bool)
    (now : Int) (owner : String)
    (h : (tryClaim store id cond now owner).2 = true) :
    ∃ r, storeFind store id = some r ∧ cond r = true ∧
      (tryClaim store id cond now owner).1 =
        storeUpdate store id (fun row => applyWrite row (.claimWrite now owner)) := by
  unfold tryClaim at h ⊢
  cases hf : storeFind store id with
  | none => rw [hf] at h; simp at h
  | some r =>
    rw [hf] at h
    dsimp only at h ⊢
    by_cases hc : cond r = true
    · exact ⟨r, rfl, hc, by rw [if_pos hc]⟩
    · rw [if_neg hc] at h; simp at h

/-- The conditional update never touches other rows. -/
theorem tryClaim_find_other (store : Store) (id : String) (cond : TaskRow → Bool)
    (now : Int) (owner : String) (id2 : String) (h : id2 ≠ id) :
    storeFind (tryClaim store id cond now owner).1 id2 = storeFind store id2 := by
  unfold tryClaim
  cases hf : storeFind store id with
  | none => rfl
  | some r =>
    dsimp only
    by_cases hc : cond r = true
    · rw [if_pos hc]
      dsimp only
      rw [storeFind_storeUpdate, if_neg h]
    · rw [if_neg hc]

/-- The claimed row's new state after an affected update. -/
theorem tryClaim_find_self (store : Store) (id : String) (cond : TaskRow → Bool)
    (now : Int) (owner : String) (r : TaskRow)
    (hf : storeFind store id = some r) (hc : cond r = true) :
    storeFind (tryClaim store id cond now owner).1 id =
      some (applyWrite r (.claimWrite now owner)) := by
  unfold tryClaim
  rw [hf]
  dsimp only
  rw [if_pos hc]
  dsimp only
  rw [storeFind_storeUpdate, if_pos rfl, hf]
  rfl

/-- A row passing the claim's WHERE clause is an eligible row. -/
theorem claimCond_eligible (isPending : Bool) (threshold : Int) (r : TaskRow)
    (h : claimCond isPending threshold r = true) : eligibleRow threshold r := by
  unfold claimCond at h
  cases isPending with
  | true =>
    left
    exact of_decide_eq_true (by simpa using h)
  | false =>
    right
    have h2 : (decide (r.status = TaskStatus.processing) &&
        (match r.locked_at with
         | some t => decide (t < threshold)
         | none => false)) = true := by simpa using h
    simp only [Bool.and_eq_true] at h2
    refine ⟨of_decide_eq_true h2.1, ?_⟩
    cases hl : r.locked_at with
    | none => rw [hl] at h2; simp at h2
    | some t =>
      rw [hl] at h2
      exact ⟨t, rfl, of_decide_eq_true (by simpa using h2.2)⟩

end SchedulerLemmas

section SchedulerTheorems

/-- Complete specification of the claim loop: it extends the accumulator with
`newIds` drawn from the candidates; its total length never exceeds the batch
size (or the incoming accumulator); each claimed id's row satisfied the WHERE
clause in the store the loop started from and ends claimed; all other rows
are untouched.  The candidate ids must be distinct (the scheduler
deduplicates them). -/
theorem claimLoop_spec (bs : Nat) (th now : Int) (ow : String) :
    ∀ (cands : List CandidateTask) (store : Store) (claimed0 : List String),
    (cands.map (fun c => c.id)).Nodup →
    ∃ newIds : List String,
      (claimLoop bs th now ow cands store claimed0).1 = claimed0 ++ newIds ∧
      (claimLoop bs th now ow cands store claimed0).1.length ≤ max bs claimed0.length ∧
      (∀ id ∈ newIds, id ∈ cands.map (fun c => c.id)) ∧
      (∀ id ∈ newIds, ∃ r, storeFind store id = some r ∧ eligibleRow th r ∧
        storeFind (claimLoop bs th now ow cands store claimed0).2 id =
          some (applyWrite r (.claimWrite now ow))) ∧
      (∀ id, id ∉ newIds →
        storeFind (claimLoop bs th now ow cands store claimed0).2 id =
          storeFind store id) := by
  intro cands
  induction cands with
  | nil =>
    intro store claimed0 _
    refine ⟨[], by simp [claimLoop], ?_, by simp, by simp, fun id _ => rfl⟩
    simp only [claimLoop]
    exact Nat.le_max_right bs claimed0.length
  | cons c rest ih =>
    intro store claimed0 hnd
    have hnd2 : (rest.map (fun c => c.id)).Nodup := (List.nodup_cons.mp hnd).2
    have hcid : c.id ∉ rest.map (fun c => c.id) := (List.nodup_cons.mp hnd).1
    by_cases hstop : bs ≤ claimed0.length
    · have hres : claimLoop bs th now ow (c :: rest) store claimed0 =
          (claimed0, store) := by
        simp only [claimLoop]
        rw [if_pos hstop]
      refine ⟨[], by rw [hres]; simp, ?_, by simp, by simp, ?_⟩
      · rw [hres]
        exact Nat.le_max_right bs claimed0.length
      · intro id _
        rw [hres]
    · by_cases helig : candidateEligibleSnapshot th c = true
      · have hstep : claimLoop bs th now ow (c :: rest) store claimed0 =
            (match tryClaim store c.id (claimCond (c.status = .pending) th) now ow with
             | (store2, true) =>
               claimLoop bs th now ow rest store2 (claimed0 ++ [c.id])
             | (store2, false) => claimLoop bs th now ow rest store2 claimed0) := by
          simp only [claimLoop]
          rw [if_neg hstop, if_pos helig]
        cases htc : tryClaim store c.id (claimCond (c.status = .pending) th) now ow with
        | mk store2 aff =>
          rw [htc] at hstep
          cases aff with
          | true =>
            dsimp only at hstep
            obtain ⟨r, hfr, hcr, _⟩ :=
              tryClaim_affected store c.id (claimCond (c.status = .pending) th) now ow
                (by rw [htc])
            have hself : storeFind store2 c.id =
                some (applyWrite r (.claimWrite now ow)) := by
              have hx := tryClaim_find_self store c.id
                (claimCond (c.status = .pending) th) now ow r hfr hcr
              rw [htc] at hx
              exact hx
            have hother : ∀ id2, id2 ≠ c.id →
                storeFind store2 id2 = storeFind store id2 := by
              intro id2 hne
              have hx := tryClaim_find_other store c.id
                (claimCond (c.status = .pending) th) now ow id2 hne
              rw [htc] at hx
              exact hx
            obtain ⟨newIds2, ha, hb, hsub, hc3, hd⟩ := ih store2 (claimed0 ++ [c.id]) hnd2
            refine ⟨c.id :: newIds2, ?_, ?_, ?_, ?_, ?_⟩
            · rw [hstep, ha]
              simp
            · rw [hstep]
              have hlen1 : (claimed0 ++ [c.id]).length = claimed0.length + 1 := by simp
              rw [hlen1] at hb
              omega
            · intro id hid
              rcases List.mem_cons.mp hid with rfl | hid2
              · exact List.mem_cons_self _ _
              · exact List.mem_cons_of_mem _ (hsub id hid2)
            · intro id hid
              rcases List.mem_cons.mp hid with rfl | hid2
              · refine ⟨r, hfr, claimCond_eligible _ th r hcr, ?_⟩
                rw [hstep]
                have hnotin : c.id ∉ newIds2 := fun hmem => hcid (hsub c.id hmem)
                rw [hd c.id hnotin, hself]
              · obtain ⟨r2, hr2, hel2, hfin⟩ := hc3 id hid2
                have hne : id ≠ c.id := by
                  intro hcontra
                  exact hcid (hcontra ▸ hsub id hid2)
                refine ⟨r2, ?_, hel2, ?_⟩
                · rw [← hother id hne]
                  exact hr2
                · rw [hstep]
                  exact hfin
            · intro id hnin
              have hnin2 : id ∉ newIds2 := fun hm => hnin (List.mem_cons_of_mem _ hm)
              have hne : id ≠ c.id := fun hcontra => hnin (hcontra ▸ List.mem_cons_self _ _)
              rw [hstep, hd id hnin2, hother id hne]
          | false =>
            dsimp only at hstep
            have hsame : store2 = store := by
              have hx := tryClaim_not_affected store c.id
                (claimCond (c.status = .pending) th) now ow (by rw [htc])
              rw [htc] at hx
              exact hx
            subst hsame
            obtain ⟨newIds2, ha, hb, hsub, hc3, hd⟩ := ih store2 claimed0 hnd2
            refine ⟨newIds2, by rw [hstep]; exact ha, by rw [hstep]; exact hb,
              fun id hid => List.mem_cons_of_mem _ (hsub id hid), ?_, ?_⟩
            · intro id hid
              obtain ⟨r2, hr2, hel2, hfin⟩ := hc3 id hid
              exact ⟨r2, hr2, hel2, by rw [hstep]; exact hfin⟩
            · intro id hnin
              rw [hstep]
              exact hd id hnin
      · have hstep : claimLoop bs th now ow (c :: rest) store claimed0 =
            claimLoop bs th now ow rest store claimed0 := by
          simp only [claimLoop]
          rw [if_neg hstop, if_neg helig]
        obtain ⟨newIds2, ha, hb, hsub, hc3, hd⟩ := ih store claimed0 hnd2
        refine ⟨newIds2, by rw [hstep]; exact ha, by rw [hstep]; exact hb,
          fun id hid => List.mem_cons_of_mem _ (hsub id hid), ?_, ?_⟩
        · intro id hid
          obtain ⟨r2, hr2, hel2, hfin⟩ := hc3 id hid
          exact ⟨r2, hr2, hel2, by rw [hstep]; exact hfin⟩
        · intro id hnin
          rw [hstep]
          exact hd id hnin

end SchedulerTheorems

section CandidateDedupTheorems

/-- Keys after a JS object assignment: unchanged when the key existed,
extended by it otherwise. -/
theorem map_fst_jsAssign {β : Type} (k : String) (v : β) (m : List (String × β)) :
    (jsAssign m k v).map Prod.fst =
      if m.any (fun e => e.1 = k) then m.map Prod.fst
      else m.map Prod.fst ++ [k] := by
  unfold jsAssign
  by_cases hmem : m.any (fun e => e.1 = k) = true
  · rw [if_pos hmem, if_pos hmem, List.map_map]
    apply List.map_congr_left
    intro a _
    by_cases ha : a.1 = k <;> simp [Function.comp, ha]
  · rw [if_neg hmem, if_neg hmem]
    simp

/-- The JS `Map`-based deduplication keeps its keys distinct and every stored
candidate keyed by its own id. -/
theorem dedupe_invariant (l : List CandidateTask) :
    ∀ m : List (String × CandidateTask),
    (m.map Prod.fst).Nodup → (∀ e ∈ m, e.2.id = e.1) →
    ((l.foldl (fun acc t => jsAssign acc t.id t) m).map Prod.fst).Nodup ∧
    (∀ e ∈ l.foldl (fun acc t => jsAssign acc t.id t) m, e.2.id = e.1) := by
  induction l with
  | nil => intro m h1 h2; exact ⟨h1, h2⟩
  | cons t ts ih =>
    intro m h1 h2
    simp only [List.foldl_cons]
    apply ih
    · rw [map_fst_jsAssign]
      by_cases hmem : m.any (fun e => e.1 = t.id) = true
      · rw [if_pos hmem]
        exact h1
      · rw [if_neg hmem]
        have hnot : t.id ∉ m.map Prod.fst := by
          intro hin
          obtain ⟨e, he, heq⟩ := List.mem_map.mp hin
          exact hmem (List.any_eq_true.mpr ⟨e, he, decide_eq_true heq⟩)
        rw [List.nodup_append]
        refine ⟨h1, List.nodup_singleton _, fun a ha hab => ?_⟩
        have ha2 : a = t.id := by simpa using hab
        exact hnot (ha2 ▸ ha)
    · intro e he
      unfold jsAssign at he
      by_cases hmem : m.any (fun e2 => e2.1 = t.id) = true
      · rw [if_pos hmem] at he
        obtain ⟨a, ha, hae⟩ := List.mem_map.mp he
        by_cases haa : a.1 = t.id
        · rw [if_pos haa] at hae
          rw [← hae]
        · rw [if_neg haa] at hae
          rw [← hae]
          exact h2 a ha
      · rw [if_neg hmem] at he
        rcases List.mem_append.mp he with h3 | h3
        · exact h2 e h3
        · have he2 : e = (t.id, t) := by simpa using h3
          rw [he2]
    
/-- The scheduler's candidate list carries pairwise distinct task ids. -/
theorem candidateTasks_nodup (ps ss : List CandidateTask) (bs : Nat) :
    ((candidateTasks ps ss bs).map (fun c => c.id)).Nodup := by
  unfold candidateTasks
  obtain ⟨hk, hv⟩ := dedupe_invariant (ps ++ ss) [] (by simp) (by simp)
  have hids : ((((ps ++ ss).foldl (fun m t => jsAssign m t.id t) []).map
      (fun e => e.2)).map (fun c => c.id)) =
      (((ps ++ ss).foldl (fun m t => jsAssign m t.id t) []).map Prod.fst) := by
    rw [List.map_map]
    exact List.map_congr_left (fun e he => hv e he)
  have hnodup_uniq : ((((ps ++ ss).foldl (fun m t => jsAssign m t.id t) []).map
      (fun e => e.2)).map (fun c => c.id)).Nodup := by
    rw [hids]
    exact hk
  have hperm := List.perm_insertionSort (fun a b : CandidateTask =>
    a.created_at < b.created_at)
    (((ps ++ ss).foldl (fun m t => jsAssign m t.id t) []).map (fun e => e.2))
  have hsorted := ((hperm.map (fun c : CandidateTask => c.id)).nodup_iff).mpr hnodup_uniq
  rw [List.map_take]
  exact hsorted.sublist (List.take_sublist _ _)

/-- C7.  One scheduler invocation claims at most the configured batch size of
tasks; a task is claimed only through the conditional update, so its row was
still pending — or still processing with a stale lock — when claimed, and
ends locked by this worker; every other row is left untouched, and a
candidate whose conditional update affected no row is skipped without
failing the run (the phase always returns a normal result when the two scan
queries succeeded). -/
theorem c7_claim_phase_bounded_and_conditional (ps ss : List CandidateTask)
    (bs : Nat) (th now : Int) (ow : String) (store : Store) :
    ∃ claimed : List String, ∃ store2 : Store,
      processDocumentTasksClaimPhase (.ok ps) (.ok ss) bs th now ow store =
        .ok (claimed, store2) ∧
      claimed.length ≤ bs ∧
      (∀ id ∈ claimed, ∃ r, storeFind store id = some r ∧ eligibleRow th r ∧
        storeFind store2 id = some (applyWrite r (.claimWrite now ow))) ∧
      (∀ id, id ∉ claimed → storeFind store2 id = storeFind store id) := by
  obtain ⟨newIds, ha, hb, hsub, hc3, hd⟩ :=
    claimLoop_spec bs th now ow (candidateTasks ps ss bs) store []
      (candidateTasks_nodup ps ss bs)
  refine ⟨(claimLoop bs th now ow (candidateTasks ps ss bs) store []).1,
          (claimLoop bs th now ow (candidateTasks ps ss bs) store []).2, rfl, ?_, ?_, ?_⟩
  · simpa using hb
  · intro id hid
    rw [ha] at hid
    simp only [List.nil_append] at hid
    exact hc3 id hid
  · intro id hnin
    rw [ha] at hnin
    simp only [List.nil_append] at hnin
    exact hd id hnin

end CandidateDedupTheorems
